import Mathlib

/-!
Verification of the dose-response (LD50) statistical core of the repository:
the two-parameter log-logistic model, the binomial negative log-likelihood,
the Nelder-Mead simplex minimizer, the model fitter with its initial-guess
heuristic, and the bootstrap percentile confidence interval.

The JavaScript/TypeScript source works on IEEE doubles; here numbers are
idealized as real numbers (numeric literals read exactly), which is the
standard shallow embedding for this kind of numeric code.  The ambient
pseudo-random source of the bootstrap is made explicit as a function giving
the resampling index for each trial and slot.
-/

namespace Kintmtool

/-- The dose-response dataset: three parallel sequences, as in the source
interface DoseData. -/
structure DoseData where
  dose : List ℝ
  response : List ℝ
  total : List ℝ

/-- Result of a model fit, as in the source interface FitResult. -/
structure FitResult where
  ld50 : ℝ
  slope : ℝ

/-! ### Stable sorting by a key

The source sorts arrays with the comparator (a, b) => f(a) - f(b); for a
pure f this is exactly a stable ascending sort by the key f, modelled here
as the classic stable insertion sort. -/

/-- Insert x into a list sorted ascending by the key f, before the first
element with key not smaller than the key of x (stable insertion). -/
noncomputable def insertByF {β : Type} (f : β → ℝ) (x : β) : List β → List β
  | [] => [x]
  | y :: ys => if f x ≤ f y then x :: y :: ys else y :: insertByF f x ys

/-- Stable ascending sort by the key f, modelling the comparator
(a, b) => f(a) - f(b) of the source. -/
noncomputable def sortByF {β : Type} (f : β → ℝ) : List β → List β
  | [] => []
  | x :: xs => insertByF f x (sortByF f xs)

/-! ### calculateMedian -/

/-- Median of a list, translated from the source function calculateMedian:
empty input gives 0, otherwise the middle element of an ascending-sorted
copy (average of the two middle elements for even length). -/
noncomputable def calculateMedian (arr : List ℝ) : ℝ :=
  if arr.length = 0 then 0
  else
    let mid := arr.length / 2
    let nums := sortByF id arr
    if arr.length % 2 ≠ 0 then nums.getD mid 0
    else (nums.getD (mid - 1) 0 + nums.getD mid 0) / 2

/-! ### Model: log-logistic curve and binomial negative log-likelihood -/

/-- The two-parameter log-logistic function, translated from the source
function logLogistic2.  params is the vector [b, e] with b the slope and
e the LD50. -/
noncomputable def logLogistic2 (params : List ℝ) (x : ℝ) : ℝ :=
  let b := params.getD 0 0
  let e := params.getD 1 0
  if x ≤ 0 ∨ e ≤ 0 then 0
  else 1 / (1 + Real.exp (b * (Real.log x - Real.log e)))

/-- Binomial negative log-likelihood of a dataset under given parameters,
translated from the source function negativeLogLikelihood: the loop skips
rows with dose ≤ 0 and subtracts each remaining row's log-likelihood term,
with the predicted probability clipped to [1e-9, 1 - 1e-9]. -/
noncomputable def negativeLogLikelihood (params : List ℝ) (data : DoseData) : ℝ :=
  ((List.range data.dose.length).map (fun i =>
    let d := data.dose.getD i 0
    if d ≤ 0 then 0
    else
      let p := logLogistic2 params d
      let pClipped := max (1 / 1000000000) (min (1 - 1 / 1000000000) p);
      -(data.response.getD i 0 * Real.log pClipped +
        (data.total.getD i 0 - data.response.getD i 0) * Real.log (1 - pClipped)))).sum

/-! ### Optimizer: the Nelder-Mead simplex minimizer

The source function nelderMead is a fuel-bounded loop over a simplex of
n+1 vertices.  The loop is split into the initial-simplex construction,
the per-iteration body after sorting, and the fuel recursion; the fuel is
the fixed iteration cap 2000 of the source. -/

/-- Initial simplex of the source: the initial point, then for each
coordinate i a copy of the initial point with coordinate i increased by
the fixed step 0.1. -/
noncomputable def initialSimplex (x0 : List ℝ) : List (List ℝ) :=
  x0 :: (List.range x0.length).map (fun i => x0.set i (x0.getD i 0 + 1 / 10))

/-- Centroid of the first n vertices (all vertices except the worst one,
the simplex being sorted): coordinate j is the sum of the vertices' j-th
coordinates each divided by n, as in the source loop. -/
noncomputable def centroidOf (n : ℕ) (s : List (List ℝ)) : List ℝ :=
  (List.range n).map (fun j =>
    ((List.range n).map (fun i => (s.getD i []).getD j 0 / (n : ℝ))).sum)

/-- One Nelder-Mead iteration on an already sorted simplex: reflection,
expansion, contraction, and shrink toward the best vertex, translated
branch for branch from the source loop body. -/
noncomputable def iterBody (n : ℕ) (f : List ℝ → ℝ) (s : List (List ℝ)) :
    List (List ℝ) :=
  let centroid := centroidOf n s
  let worstPoint := s.getD n []
  let reflected := List.zipWith (fun c w => c + (c - w)) centroid worstPoint
  let fr := f reflected
  if f (s.getD 0 []) ≤ fr ∧ fr < f (s.getD (n - 1) []) then s.set n reflected
  else if fr < f (s.getD 0 []) then
    let expanded := List.zipWith (fun c r => c + 2 * (r - c)) centroid reflected
    if f expanded < fr then s.set n expanded else s.set n reflected
  else
    let contracted := List.zipWith (fun c w => c + 1 / 2 * (w - c)) centroid worstPoint
    if f contracted < f worstPoint then s.set n contracted
    else
      match s with
      | [] => []
      | s0 :: rest => s0 :: rest.map (fun v => List.zipWith (fun a b => a + 1 / 2 * (b - a)) s0 v)

/-- The fuel-bounded main loop of the source function nelderMead: each
iteration first sorts the simplex ascending by objective value, stops
early (returning the sorted simplex) when the best-to-worst spread of
objective values is below the tolerance 1e-6, and otherwise runs one
iteration body on the sorted simplex. -/
noncomputable def nmLoop (n : ℕ) (f : List ℝ → ℝ) : List (List ℝ) → ℕ → List (List ℝ)
  | s, 0 => s
  | s, m + 1 =>
    let sorted := sortByF f s
    if f (sorted.getD n []) - f (sorted.getD 0 []) < 1 / 1000000 then sorted
    else nmLoop n f (iterBody n f sorted) m

/-- Whether the loop of nmLoop exits through the convergence test rather
than by running out of iterations. -/
noncomputable def nmConverges (n : ℕ) (f : List ℝ → ℝ) : List (List ℝ) → ℕ → Bool
  | _, 0 => false
  | s, m + 1 =>
    let sorted := sortByF f s
    if f (sorted.getD n []) - f (sorted.getD 0 []) < 1 / 1000000 then true
    else nmConverges n f (iterBody n f sorted) m

/-- The source function nelderMead: run the loop for at most 2000
iterations from the initial simplex and return the first vertex of the
final simplex together with its objective value. -/
noncomputable def nelderMead (f : List ℝ → ℝ) (x0 : List ℝ) : List ℝ × ℝ :=
  let n := x0.length
  let final := nmLoop n f (initialSimplex x0) 2000
  (final.headI, f final.headI)

/-! ### Fitter -/

/-- Penalized objective of the source function fitModel: a large sentinel
1e9 whenever the candidate LD50 (second coordinate) is non-positive,
otherwise the negative log-likelihood. -/
noncomputable def objectiveFn (data : DoseData) (p : List ℝ) : ℝ :=
  if p.getD 1 0 ≤ 0 then 1000000000 else negativeLogLikelihood p data

/-- Distances of the observed proportions response/total to one half, in
row order (the array proportions.map(p => Math.abs(p - 0.5)) of the
source). -/
noncomputable def halfDists (data : DoseData) : List ℝ :=
  ((List.range data.response.length).map
    (fun i => data.response.getD i 0 / data.total.getD i 0)).map
    (fun p => |p - 1 / 2|)

/-- Index of the row whose observed proportion is closest to one half:
the first index of the minimum of halfDists, none when the list is empty
(the source computes indexOf(Math.min(...)), which is -1 on an empty
array). -/
noncomputable def halfEffectIdx (data : DoseData) : Option ℕ :=
  (halfDists data).min?.map (fun m => (halfDists data).indexOf m)

/-- Initial LD50 guess of the source function fitModel.  The source reads
data.dose[halfEffectIndex] || calculateMedian(data.dose.filter(d => d > 0)):
the median fallback is taken both when the index is -1 (no row) and when
the selected dose is falsy, i.e. equal to 0; a final non-positive guess is
replaced by the constant 0.1. -/
noncomputable def initialLD50Guess (data : DoseData) : ℝ :=
  let selected : Option ℝ := (halfEffectIdx data).bind (fun i => data.dose.get? i)
  let g :=
    match selected with
    | some d => if d = 0 then calculateMedian (data.dose.filter (fun d => 0 < d)) else d
    | none => calculateMedian (data.dose.filter (fun d => 0 < d))
  if g ≤ 0 then 1 / 10 else g

/-- The source function fitModel: run the Nelder-Mead minimizer on the
penalized objective from the initial point [1.0, initial LD50 guess] and
package the optimal vector as slope and LD50. -/
noncomputable def fitModel (data : DoseData) : FitResult :=
  let initialParams := [1, initialLD50Guess data]
  let result := nelderMead (objectiveFn data) initialParams
  { slope := result.1.getD 0 0, ld50 := result.1.getD 1 0 }

/-! ### Bootstrapper

The source function getBootstrapCI draws Math.floor(Math.random() * n)
per slot; the random source is modelled as an explicit function rand
giving the sampled index for trial i and slot j.  The source filters each
trial with fit && fit.ld50 > 0 && isFinite(fit.ld50) inside a try/catch;
in the real-number embedding the fit is a total function and every real
is finite, so the recording condition reduces to 0 < ld50. -/

/-- Resampled dataset of one bootstrap trial: n rows drawn from the
original data at the indices given by r. -/
noncomputable def resampleData (data : DoseData) (r : ℕ → ℕ) : DoseData :=
  let n := data.dose.length
  { dose := (List.range n).map (fun j => data.dose.getD (r j) 0)
    response := (List.range n).map (fun j => data.response.getD (r j) 0)
    total := (List.range n).map (fun j => data.total.getD (r j) 0) }

/-- Outcome of one bootstrap trial: the fitted LD50 of the resample when
it is recorded (strictly positive), none when the trial is discarded. -/
noncomputable def trialEstimate (fit : DoseData → FitResult) (data : DoseData)
    (rand : ℕ → ℕ → ℕ) (i : ℕ) : Option ℝ :=
  let fr := fit (resampleData data (rand i))
  if 0 < fr.ld50 then some fr.ld50 else none

/-- Estimates recorded over a given list of trial numbers. -/
noncomputable def collectFrom (fit : DoseData → FitResult) (data : DoseData)
    (rand : ℕ → ℕ → ℕ) (idxs : List ℕ) : List ℝ :=
  idxs.filterMap (trialEstimate fit data rand)

/-- Estimates recorded over the trials 0, ..., iterations - 1 of the
source loop. -/
noncomputable def collectEstimates (fit : DoseData → FitResult) (data : DoseData)
    (iterations : ℕ) (rand : ℕ → ℕ → ℕ) : List ℝ :=
  collectFrom fit data rand (List.range iterations)

/-- Aggregation of the source function getBootstrapCI over an arbitrary
fitter: fewer than 50 recorded estimates give the undefined sentinel
interval ({lower: NaN, upper: NaN} in the source, none here); otherwise
the estimates are sorted ascending and the percentile indices
floor(0.025 * count) and ceil(0.975 * count) are read off. -/
noncomputable def getBootstrapCIAux (fit : DoseData → FitResult) (data : DoseData)
    (iterations : ℕ) (rand : ℕ → ℕ → ℕ) : Option (ℝ × ℝ) :=
  let ests := collectEstimates fit data iterations rand
  if ests.length < 50 then none
  else
    let sorted := sortByF id ests
    let lowerIndex := Nat.floor ((25 : ℚ) / 1000 * ests.length)
    let upperIndex := Nat.ceil ((975 : ℚ) / 1000 * ests.length)
    some (sorted.getD lowerIndex 0, sorted.getD upperIndex 0)

/-- The source function getBootstrapCI: the bootstrap aggregation run with
the model fitter fitModel. -/
noncomputable def getBootstrapCI (data : DoseData) (iterations : ℕ)
    (rand : ℕ → ℕ → ℕ) : Option (ℝ × ℝ) :=
  getBootstrapCIAux fitModel data iterations rand

/-! ### Vocabulary for the Nelder-Mead counterexample

With the one-dimensional linear objective below, every iteration of the
source loop takes the expansion branch, so the loop always hits the
iteration cap right after an expansion placed the new best vertex at the
end of the simplex. -/

/-- First coordinate of a vector, the objective used in the C4
counterexample. -/
def coordObj (l : List ℝ) : ℝ := l.getD 0 0

/-- One step of the sorted-pair recurrence followed by the simplex under
the objective coordObj: the sorted pair (a, b) becomes (3a - 2b, a). -/
def pstep (p : ℝ × ℝ) : ℝ × ℝ := (3 * p.1 - 2 * p.2, p.1)

/-- Iterates of pstep. -/
def pIter : ℕ → ℝ × ℝ → ℝ × ℝ
  | 0, p => p
  | m + 1, p => pIter m (pstep p)

/-! ### Vocabulary for the fitter-seed claim -/

/-- The initial ed50 seed as claim C5 states it: the dose of the row whose
observed proportion is closest to 0.5, the median of the strictly positive
doses only when no row qualifies, and the result replaced by 0.1 when it
is non-positive.  Stated from the claim's words, to be compared with the
source's initialLD50Guess. -/
noncomputable def claimSeed (data : DoseData) : ℝ :=
  let g :=
    match halfEffectIdx data with
    | some i => data.dose.getD i 0
    | none => calculateMedian (data.dose.filter (fun d => 0 < d))
  if g ≤ 0 then 1 / 10 else g

/-- Negative log-likelihood contribution of one observation row
(dose, responseCount, total), with the predicted probability clipped to
[1e-9, 1 - 1e-9]; vocabulary for stating C1. -/
noncomputable def rowNll (params : List ℝ) (row : ℝ × ℝ × ℝ) : ℝ :=
  let p := logLogistic2 params row.1
  let pc := max (1 / 1000000000) (min (1 - 1 / 1000000000) p);
  -(row.2.1 * Real.log pc + (row.2.2 - row.2.1) * Real.log (1 - pc))

/-- The observation rows of a dataset, as (dose, responseCount, total)
triples in order. -/
def dataRows (data : DoseData) : List (ℝ × ℝ × ℝ) :=
  data.dose.zip (data.response.zip data.total)

/-- The dataset obtained by deleting every observation whose dose is not
strictly positive; vocabulary for stating C1. -/
noncomputable def keepPositiveDose (data : DoseData) : DoseData :=
  { dose := ((dataRows data).filter (fun row => decide (0 < row.1))).map (fun r => r.1)
    response := ((dataRows data).filter (fun row => decide (0 < row.1))).map (fun r => r.2.1)
    total := ((dataRows data).filter (fun row => decide (0 < row.1))).map (fun r => r.2.2) }


/-! ### Lemmas about the stable sort -/

theorem length_insertByF {β : Type} (f : β → ℝ) (x : β) (l : List β) :
    (insertByF f x l).length = l.length + 1 := by
  induction l with
  | nil => rfl
  | cons y ys ih =>
    simp only [insertByF]
    by_cases h : f x ≤ f y
    · simp [h]
    · simp [h, ih]

theorem perm_insertByF {β : Type} (f : β → ℝ) (x : β) (l : List β) :
    List.Perm (insertByF f x l) (x :: l) := by
  induction l with
  | nil => simp [insertByF]
  | cons y ys ih =>
    simp only [insertByF]
    by_cases h : f x ≤ f y
    · simp [h]
    · simpa [h] using ((ih.cons y).trans (List.Perm.swap x y ys))

theorem sorted_insertByF {β : Type} (f : β → ℝ) (x : β) (l : List β)
    (hl : l.Sorted (fun a b => f a ≤ f b)) :
    (insertByF f x l).Sorted (fun a b => f a ≤ f b) := by
  induction l with
  | nil => simp [insertByF]
  | cons y ys ih =>
    rw [List.sorted_cons] at hl
    simp only [insertByF]
    by_cases h : f x ≤ f y
    · rw [if_pos h, List.sorted_cons]
      refine ⟨?_, List.sorted_cons.2 hl⟩
      intro b hb
      rcases List.mem_cons.1 hb with hb | hb
      · exact hb ▸ h
      · exact le_trans h (hl.1 b hb)
    · rw [if_neg h, List.sorted_cons]
      refine ⟨?_, ih hl.2⟩
      intro b hb
      have hb2 := (perm_insertByF f x ys).mem_iff.1 hb
      rcases List.mem_cons.1 hb2 with hb3 | hb3
      · exact hb3 ▸ le_of_not_le h
      · exact hl.1 b hb3

theorem perm_sortByF {β : Type} (f : β → ℝ) (l : List β) :
    List.Perm (sortByF f l) l := by
  induction l with
  | nil => simp [sortByF]
  | cons x xs ih =>
    exact (perm_insertByF f x (sortByF f xs)).trans (ih.cons x)

theorem sorted_sortByF {β : Type} (f : β → ℝ) (l : List β) :
    (sortByF f l).Sorted (fun a b => f a ≤ f b) := by
  induction l with
  | nil => simp [sortByF]
  | cons x xs ih => exact sorted_insertByF f x _ ih

theorem length_sortByF {β : Type} (f : β → ℝ) (l : List β) :
    (sortByF f l).length = l.length :=
  (perm_sortByF f l).length_eq

theorem mem_sortByF {β : Type} (f : β → ℝ) (l : List β) {y : β} :
    y ∈ sortByF f l ↔ y ∈ l :=
  (perm_sortByF f l).mem_iff

/-- The head of a nonempty sorted-by-key list has the least key. -/
theorem headI_sortByF_le {β : Type} [Inhabited β] (f : β → ℝ) (l : List β) :
    ∀ y ∈ sortByF f l, f ((sortByF f l).headI) ≤ f y := by
  intro y hy
  rcases hs : sortByF f l with _ | ⟨a, as⟩
  · rw [hs] at hy; simp at hy
  · rw [hs] at hy
    have hsort := sorted_sortByF f l
    rw [hs, List.sorted_cons] at hsort
    rcases List.mem_cons.1 hy with hy2 | hy2
    · simp [hy2]
    · simpa using hsort.1 y hy2

/-- Sorting a constant list is the identity. -/
theorem sortByF_replicate {β : Type} (f : β → ℝ) (n : ℕ) (x : β) :
    sortByF f (List.replicate n x) = List.replicate n x := by
  induction n with
  | zero => simp [sortByF]
  | succ m ih =>
    rw [List.replicate_succ, sortByF, ih]
    cases m with
    | zero => simp [insertByF]
    | succ k => rw [List.replicate_succ, insertByF, if_pos le_rfl, ← List.replicate_succ]

/-- Sorted-by-key lists have keys monotone in the index (getD version). -/
theorem sorted_getD_mono {β : Type} [Inhabited β] (f : β → ℝ) (l : List β)
    (hl : l.Sorted (fun a b => f a ≤ f b)) {i j : ℕ}
    (hij : i ≤ j) (hj : j < l.length) :
    f (l.getD i default) ≤ f (l.getD j default) := by
  have hi : i < l.length := lt_of_le_of_lt hij hj
  rw [l.getD_eq_getElem default hi, l.getD_eq_getElem default hj]
  rcases eq_or_lt_of_le hij with rfl | hlt
  · exact le_rfl
  · exact List.pairwise_iff_getElem.1 hl i j hi hj hlt

/-! ### Helper lemmas about logLogistic2 -/

/-- Evaluation of logLogistic2 on positive dose and positive LD50. -/
theorem logLogistic2_pos_eval (b e x : ℝ) (hx : 0 < x) (he : 0 < e) :
    logLogistic2 [b, e] x = 1 / (1 + Real.exp (b * (Real.log x - Real.log e))) := by
  rw [logLogistic2]
  simp only [List.getD_cons_zero, List.getD_cons_succ]
  rw [if_neg]
  push_neg
  exact ⟨hx, he⟩

/-- The log-logistic response is never negative. -/
theorem logLogistic2_nonneg (params : List ℝ) (x : ℝ) :
    0 ≤ logLogistic2 params x := by
  rw [logLogistic2]
  split
  · exact le_rfl
  · positivity

/-- For a non-negative slope the log-logistic response does not increase
with the dose, over strictly positive doses. -/
theorem logLogistic2_anti (b e : ℝ) (he : 0 < e) (hb : 0 ≤ b) {x y : ℝ}
    (hx : 0 < x) (hxy : x ≤ y) :
    logLogistic2 [b, e] y ≤ logLogistic2 [b, e] x := by
  have hy : 0 < y := lt_of_lt_of_le hx hxy
  rw [logLogistic2_pos_eval b e x hx he, logLogistic2_pos_eval b e y hy he]
  have hlog : Real.log x ≤ Real.log y := Real.log_le_log hx hxy
  have harg : b * (Real.log x - Real.log e) ≤ b * (Real.log y - Real.log e) :=
    mul_le_mul_of_nonneg_left (by linarith) hb
  have hexp : Real.exp (b * (Real.log x - Real.log e)) ≤
      Real.exp (b * (Real.log y - Real.log e)) := Real.exp_le_exp.2 harg
  exact one_div_le_one_div_of_le (by positivity) (by linarith)

/-- For a non-positive slope the log-logistic response does not decrease
with the dose, over strictly positive doses. -/
theorem logLogistic2_mono (b e : ℝ) (he : 0 < e) (hb : b ≤ 0) {x y : ℝ}
    (hx : 0 < x) (hxy : x ≤ y) :
    logLogistic2 [b, e] x ≤ logLogistic2 [b, e] y := by
  have hy : 0 < y := lt_of_lt_of_le hx hxy
  rw [logLogistic2_pos_eval b e x hx he, logLogistic2_pos_eval b e y hy he]
  have hlog : Real.log x ≤ Real.log y := Real.log_le_log hx hxy
  have harg : b * (Real.log y - Real.log e) ≤ b * (Real.log x - Real.log e) :=
    mul_le_mul_of_nonpos_left (by linarith) hb
  have hexp : Real.exp (b * (Real.log y - Real.log e)) ≤
      Real.exp (b * (Real.log x - Real.log e)) := Real.exp_le_exp.2 harg
  exact one_div_le_one_div_of_le (by positivity) (by linarith)

/-! ### Claim C2 -/

/-- C2: logisticResponse((slope, ed50), dose) returns exactly 0 when
dose ≤ 0 or ed50 ≤ 0, and otherwise returns
1 / (1 + exp(slope * (ln(dose) - ln(ed50)))). -/
theorem claim_C2 (slope ed50 dose : ℝ) :
    ((dose ≤ 0 ∨ ed50 ≤ 0) → logLogistic2 [slope, ed50] dose = 0) ∧
    (0 < dose → 0 < ed50 →
      logLogistic2 [slope, ed50] dose =
        1 / (1 + Real.exp (slope * (Real.log dose - Real.log ed50)))) := by
  constructor
  · intro h
    rw [logLogistic2]
    simp only [List.getD_cons_zero, List.getD_cons_succ]
    rw [if_pos h]
  · intro hx he
    exact logLogistic2_pos_eval slope ed50 dose hx he

/-- Witness for C2 at slope 2, ed50 3, doses -1 and 5. -/
theorem claim_C2_witness :
    ((-1 : ℝ) ≤ 0 ∨ (3 : ℝ) ≤ 0) ∧ logLogistic2 [2, 3] (-1) = 0 ∧
    (0 : ℝ) < 5 ∧ (0 : ℝ) < 3 ∧
    logLogistic2 [2, 3] 5 = 1 / (1 + Real.exp (2 * (Real.log 5 - Real.log 3))) :=
  ⟨Or.inl (by norm_num), (claim_C2 2 3 (-1)).1 (Or.inl (by norm_num)),
   by norm_num, by norm_num, (claim_C2 2 3 5).2 (by norm_num) (by norm_num)⟩

/-! ### Claim C8 -/

/-- C8: at dose equal to a strictly positive ed50 the response is exactly
one half, for any slope. -/
theorem claim_C8 (slope ed50 : ℝ) (h : 0 < ed50) :
    logLogistic2 [slope, ed50] ed50 = 1 / 2 := by
  rw [logLogistic2_pos_eval slope ed50 ed50 h h, sub_self, mul_zero, Real.exp_zero]
  norm_num

/-- Witness for C8 at slope 2, ed50 3. -/
theorem claim_C8_witness : (0 : ℝ) < 3 ∧ logLogistic2 [2, 3] 3 = 1 / 2 :=
  ⟨by norm_num, claim_C8 2 3 (by norm_num)⟩

/-! ### Claim C9 -/

/-- C9 as stated is false: with slope 1 > 0 and ed50 1 > 0, the doses
0 ≤ 1 give logisticResponse 0 at dose 0 but one half at dose 1, so the
response is not non-increasing across the non-positive-dose boundary. -/
theorem claim_C9_counterexample :
    (0 : ℝ) < 1 ∧ (0 : ℝ) ≤ 1 ∧
    ¬ (logLogistic2 [1, 1] 1 ≤ logLogistic2 [1, 1] 0) := by
  refine ⟨by norm_num, by norm_num, ?_⟩
  have h0 : logLogistic2 [1, 1] 0 = 0 := by
    rw [logLogistic2]
    simp
  have h1 : logLogistic2 [1, 1] 1 = 1 / 2 := claim_C8 1 1 (by norm_num)
  rw [h0, h1]
  norm_num

/-- C9 amended: for fixed positive ed50 the response is non-increasing in
dose when slope > 0 over strictly positive doses (at non-positive doses
the function jumps to 0, so the claim fails there), and non-decreasing in
dose when slope < 0 over all doses including non-positive ones. -/
theorem claim_C9_amended (slope ed50 d1 d2 : ℝ) (he : 0 < ed50) (h12 : d1 ≤ d2) :
    (0 < slope → 0 < d1 →
      logLogistic2 [slope, ed50] d2 ≤ logLogistic2 [slope, ed50] d1) ∧
    (slope < 0 →
      logLogistic2 [slope, ed50] d1 ≤ logLogistic2 [slope, ed50] d2) := by
  constructor
  · intro hb hd1
    exact logLogistic2_anti slope ed50 he (le_of_lt hb) hd1 h12
  · intro hb
    rcases le_or_lt d1 0 with hd1 | hd1
    · have h0 : logLogistic2 [slope, ed50] d1 = 0 := by
        rw [logLogistic2]
        simp only [List.getD_cons_zero, List.getD_cons_succ]
        rw [if_pos (Or.inl hd1)]
      rw [h0]
      exact logLogistic2_nonneg _ _
    · exact logLogistic2_mono slope ed50 he (le_of_lt hb) hd1 h12

/-- Witness for the amended C9 at slope 2, ed50 1, doses 1 ≤ 4, and at
slope -2, ed50 1, doses -1 ≤ 4. -/
theorem claim_C9_amended_witness :
    ((0 : ℝ) < 1 ∧ (1 : ℝ) ≤ 4 ∧ (0 : ℝ) < 2 ∧ (0 : ℝ) < 1 ∧
      logLogistic2 [2, 1] 4 ≤ logLogistic2 [2, 1] 1) ∧
    ((-1 : ℝ) ≤ 4 ∧ (-2 : ℝ) < 0 ∧
      logLogistic2 [-2, 1] (-1) ≤ logLogistic2 [-2, 1] 4) :=
  ⟨⟨by norm_num, by norm_num, by norm_num, by norm_num,
    (claim_C9_amended 2 1 1 4 (by norm_num) (by norm_num)).1 (by norm_num) (by norm_num)⟩,
   ⟨by norm_num, by norm_num,
    (claim_C9_amended (-2) 1 (-1) 4 (by norm_num) (by norm_num)).2 (by norm_num)⟩⟩

/-! ### Claim C1 -/

theorem negLL_cons (params : List ℝ) (d r t : ℝ) (ds rs ts : List ℝ) :
    negativeLogLikelihood params ⟨d :: ds, r :: rs, t :: ts⟩ =
      (if d ≤ 0 then 0 else rowNll params (d, r, t)) +
        negativeLogLikelihood params ⟨ds, rs, ts⟩ := by
  rw [negativeLogLikelihood, negativeLogLikelihood]
  simp only [List.length_cons, List.range_succ_eq_map, List.map_cons, List.sum_cons,
    List.map_map]
  congr 1

theorem negLL_rows (params : List ℝ) :
    ∀ (ds rs ts : List ℝ), rs.length = ds.length → ts.length = ds.length →
    negativeLogLikelihood params ⟨ds, rs, ts⟩ =
      ((ds.zip (rs.zip ts)).map
        (fun row => if row.1 ≤ 0 then 0 else rowNll params row)).sum := by
  intro ds
  induction ds with
  | nil =>
    intro rs ts _ _
    simp [negativeLogLikelihood]
  | cons d ds ih =>
    intro rs ts hr ht
    match rs, ts with
    | r :: rs, t :: ts =>
      simp only [List.length_cons, Nat.add_right_cancel_iff] at hr ht
      rw [negLL_cons, ih rs ts hr ht, List.zip_cons_cons, List.zip_cons_cons,
        List.map_cons, List.sum_cons]

theorem sum_ite_filter (params : List ℝ) (l : List (ℝ × ℝ × ℝ)) :
    (l.map (fun row => if row.1 ≤ 0 then 0 else rowNll params row)).sum =
      ((l.filter (fun row => decide (0 < row.1))).map (rowNll params)).sum := by
  induction l with
  | nil => simp
  | cons x xs ih =>
    by_cases h : x.1 ≤ 0
    · rw [List.map_cons, List.sum_cons, if_pos h, List.filter_cons,
        if_neg (by simp [not_lt.2 h]), ih, zero_add]
    · rw [List.map_cons, List.sum_cons, if_neg h, List.filter_cons,
        if_pos (by simp [not_le.1 h]), List.map_cons, List.sum_cons, ih]

theorem zip_projections (l : List (ℝ × ℝ × ℝ)) :
    (l.map (fun r => r.1)).zip ((l.map (fun r => r.2.1)).zip (l.map (fun r => r.2.2))) = l := by
  induction l with
  | nil => rfl
  | cons x xs ih => rw [List.map_cons, List.map_cons, List.map_cons,
      List.zip_cons_cons, List.zip_cons_cons, ih]

/-- C1: for equal-length dose/response/total sequences, the negative
log-likelihood is the sum, over exactly the observations with strictly
positive dose, of -[responseCount * ln(p) + (total - responseCount) *
ln(1 - p)] with p the clamped predicted response, and deleting the
non-positive-dose observations from the dataset leaves it unchanged. -/
theorem claim_C1 (params : List ℝ) (data : DoseData)
    (hr : data.response.length = data.dose.length)
    (ht : data.total.length = data.dose.length) :
    negativeLogLikelihood params data =
      (((dataRows data).filter (fun row => decide (0 < row.1))).map
        (rowNll params)).sum ∧
    negativeLogLikelihood params (keepPositiveDose data) =
      negativeLogLikelihood params data := by
  obtain ⟨ds, rs, ts⟩ := data
  simp only at hr ht
  have hfirst : negativeLogLikelihood params ⟨ds, rs, ts⟩ =
      (((dataRows ⟨ds, rs, ts⟩).filter (fun row => decide (0 < row.1))).map
        (rowNll params)).sum := by
    rw [negLL_rows params ds rs ts hr ht]
    exact sum_ite_filter params _
  refine ⟨hfirst, ?_⟩
  have hkeep : negativeLogLikelihood params (keepPositiveDose ⟨ds, rs, ts⟩) =
      ((((dataRows ⟨ds, rs, ts⟩).filter (fun row => decide (0 < row.1))).map
        (fun row => if row.1 ≤ 0 then 0 else rowNll params row))).sum := by
    rw [keepPositiveDose]
    rw [negLL_rows params _ _ _ (by simp) (by simp)]
    rw [zip_projections]
  rw [hkeep, sum_ite_filter params _, List.filter_filter]
  simp only [Bool.and_self]
  exact hfirst.symm

/-- Witness for C1 on the dataset with rows (0, 0, 1) and (1, 0, 2) at
parameters [1, 1]. -/
theorem claim_C1_witness :
    negativeLogLikelihood [1, 1] ⟨[0, 1], [0, 0], [1, 2]⟩ =
      (((dataRows ⟨[0, 1], [0, 0], [1, 2]⟩).filter
        (fun row => decide (0 < row.1))).map (rowNll [1, 1])).sum ∧
    negativeLogLikelihood [1, 1] (keepPositiveDose ⟨[0, 1], [0, 0], [1, 2]⟩) =
      negativeLogLikelihood [1, 1] ⟨[0, 1], [0, 0], [1, 2]⟩ :=
  claim_C1 [1, 1] ⟨[0, 1], [0, 0], [1, 2]⟩ rfl rfl

/-! ### Claim C3 -/

/-- C3: the optimizer builds the initial simplex from the initial point by
adding, for each coordinate, a copy with that coordinate increased by the
fixed step 0.1; it runs at most 2000 iterations; each iteration first
sorts the vertices by objective value ascending and stops early as soon
as the spread between worst and best objective value is below 1e-6. -/
theorem claim_C3 (f : List ℝ → ℝ) (x0 : List ℝ) :
    (initialSimplex x0).length = x0.length + 1 ∧
    (initialSimplex x0).headI = x0 ∧
    (∀ i j, i < x0.length → j < x0.length →
      ((initialSimplex x0).getD (i + 1) []).getD j 0 =
        if j = i then x0.getD j 0 + 1 / 10 else x0.getD j 0) ∧
    nelderMead f x0 =
      ((nmLoop x0.length f (initialSimplex x0) 2000).headI,
        f (nmLoop x0.length f (initialSimplex x0) 2000).headI) ∧
    (∀ (s : List (List ℝ)) (m : ℕ),
      f ((sortByF f s).getD x0.length []) - f ((sortByF f s).getD 0 []) < 1 / 1000000 →
      nmLoop x0.length f s (m + 1) = sortByF f s) := by
  refine ⟨by simp [initialSimplex], rfl, ?_, rfl, ?_⟩
  · intro i j hi hj
    have hmap : ((List.range x0.length).map
        (fun i => x0.set i (x0.getD i 0 + 1 / 10))).getD i [] =
        x0.set i (x0.getD i 0 + 1 / 10) := by
      rw [List.getD_eq_getElem _ _ (by simpa using hi), List.getElem_map, List.getElem_range]
    rw [initialSimplex, List.getD_cons_succ, hmap,
      List.getD_eq_getElem _ _ (by simpa using hj), List.getElem_set]
    by_cases hij : j = i
    · subst hij
      rw [if_pos rfl, if_pos rfl]
    · rw [if_neg (fun h => hij h.symm), if_neg hij, List.getD_eq_getElem _ _ hj]
  · intro s m h
    simp only [nmLoop]
    rw [if_pos h]

/-- Witness for C3 with the zero objective and the initial point [0, 0]. -/
theorem claim_C3_witness :
    (initialSimplex ([0, 0] : List ℝ)).length = 3 ∧
    (initialSimplex ([0, 0] : List ℝ)).headI = [0, 0] ∧
    ((initialSimplex ([0, 0] : List ℝ)).getD 1 []).getD 0 0 = 1 / 10 ∧
    ((initialSimplex ([0, 0] : List ℝ)).getD 1 []).getD 1 0 = 0 ∧
    nmLoop 2 (fun _ => (0 : ℝ)) [] 1 = sortByF (fun _ => (0 : ℝ)) [] := by
  have h := claim_C3 (fun _ => (0 : ℝ)) [0, 0]
  refine ⟨h.1, h.2.1, ?_, ?_, ?_⟩
  · have h3 := h.2.2.1 0 0 (by norm_num) (by norm_num)
    simpa using h3
  · have h3 := h.2.2.1 0 1 (by norm_num) (by norm_num)
    simpa using h3
  · exact h.2.2.2.2 [] 0 (by show (0 : ℝ) - 0 < 1 / 1000000; norm_num)

/-! ### Claim C4 -/

theorem set_ne_nil {α : Type} (l : List α) (i : ℕ) (a : α) (h : l ≠ []) :
    l.set i a ≠ [] := by
  rw [← List.length_pos, List.length_set, List.length_pos]
  exact h

theorem iterBody_ne_nil (n : ℕ) (f : List ℝ → ℝ) (s : List (List ℝ)) (hs : s ≠ []) :
    iterBody n f s ≠ [] := by
  match s, hs with
  | s0 :: rest, _ =>
    simp only [iterBody]
    split
    · exact set_ne_nil _ n _ (by simp)
    · split
      · split
        · exact set_ne_nil _ n _ (by simp)
        · exact set_ne_nil _ n _ (by simp)
      · split
        · exact set_ne_nil _ n _ (by simp)
        · simp

theorem sortByF_ne_nil {β : Type} (f : β → ℝ) (l : List β) (h : l ≠ []) :
    sortByF f l ≠ [] := by
  rw [← List.length_pos, length_sortByF, List.length_pos]
  exact h

theorem nmLoop_ne_nil (n : ℕ) (f : List ℝ → ℝ) :
    ∀ (m : ℕ) (s : List (List ℝ)), s ≠ [] → nmLoop n f s m ≠ [] := by
  intro m
  induction m with
  | zero => intro s hs; exact hs
  | succ k ih =>
    intro s hs
    simp only [nmLoop]
    split
    · exact sortByF_ne_nil f s hs
    · exact ih _ (iterBody_ne_nil n f _ (sortByF_ne_nil f s hs))

theorem headI_mem_of_ne_nil {β : Type} [Inhabited β] (l : List β) (h : l ≠ []) :
    l.headI ∈ l := by
  match l, h with
  | a :: as, _ => simp

/-- When the loop exits through the convergence test, the simplex it
returns has just been sorted, so its first vertex minimizes the objective
over the final vertices. -/
theorem nmConverges_min (n : ℕ) (f : List ℝ → ℝ) :
    ∀ (m : ℕ) (s : List (List ℝ)), nmConverges n f s m = true →
    ∀ v ∈ nmLoop n f s m, f ((nmLoop n f s m).headI) ≤ f v := by
  intro m
  induction m with
  | zero => intro s hc; simp [nmConverges] at hc
  | succ k ih =>
    intro s hc
    simp only [nmConverges] at hc
    simp only [nmLoop]
    by_cases h : f ((sortByF f s).getD n []) - f ((sortByF f s).getD 0 []) < 1 / 1000000
    · rw [if_pos h]
      exact headI_sortByF_le f s
    · rw [if_neg h] at hc ⊢
      exact ih _ hc

/-- C4 amended: the returned value is the objective at the returned point,
and the returned point is a vertex of the final simplex; when the loop
ends through the convergence test the returned point moreover has the
minimum objective value among the final vertices.  As stated the claim is
false at the iteration cap, where the last iteration may have placed a
better vertex than the returned one at the end of the simplex (see the
counterexample). -/
theorem claim_C4_amended (f : List ℝ → ℝ) (x0 : List ℝ) :
    (nelderMead f x0).2 = f (nelderMead f x0).1 ∧
    (nelderMead f x0).1 ∈ nmLoop x0.length f (initialSimplex x0) 2000 ∧
    (nmConverges x0.length f (initialSimplex x0) 2000 = true →
      ∀ v ∈ nmLoop x0.length f (initialSimplex x0) 2000,
        f (nelderMead f x0).1 ≤ f v) := by
  have hne : nmLoop x0.length f (initialSimplex x0) 2000 ≠ [] :=
    nmLoop_ne_nil _ _ _ _ (by simp [initialSimplex])
  exact ⟨rfl, headI_mem_of_ne_nil _ hne, fun hc => nmConverges_min _ f 2000 _ hc⟩

theorem sortTwo (a b : ℝ) (hab : a ≤ b) :
    sortByF coordObj [[a], [b]] = [[a], [b]] := by
  simp only [sortByF, insertByF, coordObj, List.getD_cons_zero]
  rw [if_pos hab]

theorem sortTwoSwap (a b : ℝ) (hab : a < b) :
    sortByF coordObj [[b], [a]] = [[a], [b]] := by
  simp only [sortByF, insertByF, coordObj, List.getD_cons_zero]
  rw [if_neg (not_le.2 hab)]

theorem centroidTwo (a b : ℝ) : centroidOf 1 [[a], [b]] = [a] := by
  simp [centroidOf, List.range_succ]

theorem iterBodyTwo (a b : ℝ) (hab : a < b) :
    iterBody 1 coordObj [[a], [b]] = [[a], [3 * a - 2 * b]] := by
  simp only [iterBody, centroidTwo, List.getD_cons_succ, List.getD_cons_zero, coordObj,
    List.zipWith_cons_cons, List.zipWith_nil_right, Nat.sub_self]
  rw [if_neg (by rintro ⟨h1, -⟩; linarith), if_pos (by linarith :
    a + (a - b) < a), if_pos (by linarith : a + 2 * (a + (a - b) - a) < a + (a - b))]
  have hv : a + 2 * (a + (a - b) - a) = 3 * a - 2 * b := by ring
  rw [hv]
  rfl

theorem nmLoop_step (a b : ℝ) (hab : a < b) (hgap : 1 / 10 ≤ b - a) (m : ℕ) :
    nmLoop 1 coordObj [[a], [b]] (m + 1) = nmLoop 1 coordObj [[a], [3 * a - 2 * b]] m ∧
    nmLoop 1 coordObj [[b], [a]] (m + 1) = nmLoop 1 coordObj [[a], [3 * a - 2 * b]] m := by
  have hcond : ¬ (coordObj ([[a], [b]].getD 1 []) - coordObj ([[a], [b]].getD 0 []) <
      1 / 1000000) := by
    simp only [List.getD_cons_succ, List.getD_cons_zero, coordObj]
    linarith
  constructor
  · simp only [nmLoop, sortTwo a b hab.le]
    rw [if_neg hcond, iterBodyTwo a b hab]
  · simp only [nmLoop, sortTwoSwap a b hab]
    rw [if_neg hcond, iterBodyTwo a b hab]

theorem nmLoop_unroll (m : ℕ) : ∀ (a b : ℝ), a < b → 1 / 10 ≤ b - a →
    nmLoop 1 coordObj [[a], [b]] (m + 1) =
      [[(pIter m (a, b)).1], [3 * (pIter m (a, b)).1 - 2 * (pIter m (a, b)).2]] ∧
    nmLoop 1 coordObj [[b], [a]] (m + 1) =
      [[(pIter m (a, b)).1], [3 * (pIter m (a, b)).1 - 2 * (pIter m (a, b)).2]] := by
  induction m with
  | zero =>
    intro a b hab hgap
    have h := nmLoop_step a b hab hgap 0
    refine ⟨?_, ?_⟩
    · rw [h.1]; simp [nmLoop, pIter]
    · rw [h.2]; simp [nmLoop, pIter]
  | succ k ih =>
    intro a b hab hgap
    have hstep := nmLoop_step a b hab hgap (k + 1)
    have hlt : 3 * a - 2 * b < a := by linarith
    have hgap2 : 1 / 10 ≤ a - (3 * a - 2 * b) := by linarith
    have hih := (ih (3 * a - 2 * b) a hlt hgap2).2
    have hp : pstep (a, b) = (3 * a - 2 * b, a) := rfl
    refine ⟨?_, ?_⟩
    · rw [hstep.1, hih]
      simp [pIter, hp]
    · rw [hstep.2, hih]
      simp [pIter, hp]

theorem pIter_geom : ∀ (m k : ℕ),
    pIter m ((1 - 2 ^ k) / 5, (2 - 2 ^ k) / 10) =
      ((1 - 2 ^ (m + k)) / 5, (2 - 2 ^ (m + k)) / 10) := by
  intro m
  induction m with
  | zero => intro k; simp [pIter]
  | succ t ih =>
    intro k
    have hp : pstep (((1 : ℝ) - 2 ^ k) / 5, ((2 : ℝ) - 2 ^ k) / 10) =
        ((1 - 2 ^ (k + 1)) / 5, (2 - 2 ^ (k + 1)) / 10) := by
      simp only [pstep, Prod.mk.injEq]
      constructor
      · rw [pow_succ]; ring
      · rw [pow_succ]; ring
    rw [pIter, hp, ih (k + 1)]
    have he : t + (k + 1) = t + 1 + k := by omega
    rw [he]

/-- C4 as stated is false at the iteration cap: with the objective taking
a vector to its first coordinate and the initial point [0], every
iteration expands, the cap is reached, and the final simplex contains a
vertex with strictly smaller objective value than the returned point. -/
theorem claim_C4_counterexample :
    ¬ (∀ v ∈ nmLoop 1 coordObj (initialSimplex [0]) 2000,
        (nelderMead coordObj [0]).2 ≤ coordObj v) := by
  have hinit : initialSimplex [0] = [[(0 : ℝ)], [1 / 10]] := by
    norm_num [initialSimplex, List.range_succ]
  have hpair : pIter 1999 ((0 : ℝ), 1 / 10) =
      ((1 - 2 ^ 1999) / 5, (2 - 2 ^ 1999) / 10) := by
    have h0 : (((0 : ℝ), (1 : ℝ) / 10)) =
        (((1 : ℝ) - 2 ^ 0) / 5, ((2 : ℝ) - 2 ^ 0) / 10) := by norm_num
    rw [h0, pIter_geom 1999 0]
  have hloop : nmLoop 1 coordObj [[(0 : ℝ)], [1 / 10]] 2000 =
      [[((1 : ℝ) - 2 ^ 1999) / 5],
       [3 * (((1 : ℝ) - 2 ^ 1999) / 5) - 2 * (((2 : ℝ) - 2 ^ 1999) / 10)]] := by
    have h := (nmLoop_unroll 1999 0 (1 / 10) (by norm_num) (by norm_num)).1
    rw [hpair] at h
    exact h
  have hfinal : nmLoop 1 coordObj (initialSimplex [0]) 2000 =
      [[((1 : ℝ) - 2 ^ 1999) / 5],
       [3 * (((1 : ℝ) - 2 ^ 1999) / 5) - 2 * (((2 : ℝ) - 2 ^ 1999) / 10)]] := by
    rw [hinit, hloop]
  have hret : (nelderMead coordObj [0]).2 = ((1 : ℝ) - 2 ^ 1999) / 5 := by
    simp only [nelderMead, List.length_cons, List.length_nil, Nat.zero_add]
    rw [hfinal]
    simp [coordObj]
  intro hall
  have hmem : [3 * (((1 : ℝ) - 2 ^ 1999) / 5) - 2 * (((2 : ℝ) - 2 ^ 1999) / 10)] ∈
      nmLoop 1 coordObj (initialSimplex [0]) 2000 := by
    rw [hfinal]
    simp
  have hv := hall _ hmem
  rw [hret] at hv
  simp only [coordObj, List.getD_cons_zero] at hv
  have hp : (0 : ℝ) < 2 ^ 1999 := by positivity
  nlinarith [hv, hp]

/-- Witness for the amended C4 with the constant zero objective and the
initial point [0]: the loop converges at once, and the returned point
minimizes the objective over the final simplex. -/
theorem claim_C4_amended_witness :
    nmConverges 1 (fun _ => (0 : ℝ)) (initialSimplex [0]) 2000 = true ∧
    (nelderMead (fun _ => (0 : ℝ)) [0]).2 =
      (fun _ => (0 : ℝ)) (nelderMead (fun _ => (0 : ℝ)) [0]).1 ∧
    (nelderMead (fun _ => (0 : ℝ)) [0]).1 ∈
      nmLoop 1 (fun _ => (0 : ℝ)) (initialSimplex [0]) 2000 ∧
    (fun _ => (0 : ℝ)) (nelderMead (fun _ => (0 : ℝ)) [0]).1 ≤
      (fun _ => (0 : ℝ)) [(0 : ℝ)] := by
  have h := claim_C4_amended (fun _ => (0 : ℝ)) [0]
  have hconv : nmConverges 1 (fun _ => (0 : ℝ)) (initialSimplex [0]) 2000 = true := by
    have h2000 : (2000 : ℕ) = 1999 + 1 := by norm_num
    rw [h2000, nmConverges]
    simp
  exact ⟨hconv, h.1, h.2.1, le_rfl⟩

/-! ### Claim C5 -/

theorem halfDists_length (data : DoseData) :
    (halfDists data).length = data.response.length := by
  simp [halfDists]

theorem halfEffectIdx_lt (data : DoseData)
    (hr : data.response.length = data.dose.length)
    {i : ℕ} (hi : halfEffectIdx data = some i) : i < data.dose.length := by
  rw [halfEffectIdx] at hi
  cases hmin : (halfDists data).min? with
  | none => rw [hmin] at hi; simp at hi
  | some m =>
    rw [hmin, Option.map_some' m _] at hi
    have hm : m ∈ halfDists data :=
      List.min?_mem (fun a b => min_choice a b) hmin
    have hlt : List.indexOf m (halfDists data) < (halfDists data).length :=
      List.indexOf_lt_length.2 hm
    rw [halfDists_length, hr] at hlt
    have hieq : List.indexOf m (halfDists data) = i := by
      injection hi
    rw [hieq] at hlt
    exact hlt

/-- C5 as stated is false: on the valid dataset with rows (0, 1, 2) and
(10, 0, 1), the row with observed proportion exactly 0.5 is the first one
and has dose 0, so the claim requires the seed 0.1; the code instead takes
the JavaScript falsy fallback on the zero dose and seeds the optimizer
with the median of the positive doses, 10. -/
theorem claim_C5_counterexample :
    claimSeed ⟨[0, 10], [1, 0], [2, 1]⟩ = 1 / 10 ∧
    initialLD50Guess ⟨[0, 10], [1, 0], [2, 1]⟩ = 10 ∧
    initialLD50Guess ⟨[0, 10], [1, 0], [2, 1]⟩ ≠ claimSeed ⟨[0, 10], [1, 0], [2, 1]⟩ := by
  have hdists : halfDists ⟨[0, 10], [1, 0], [2, 1]⟩ = [0, 1 / 2] := by
    have hr2 : List.range 2 = [0, 1] := rfl
    simp only [halfDists, List.length_cons, List.length_nil, hr2, List.map_cons,
      List.map_nil, List.getD_cons_zero, List.getD_cons_succ]
    norm_num
  have hidx : halfEffectIdx ⟨[0, 10], [1, 0], [2, 1]⟩ = some 0 := by
    rw [halfEffectIdx, hdists]
    have hmin : ([0, 1 / 2] : List ℝ).min? = some 0 := by
      have h1 : ([0, 1 / 2] : List ℝ).min? = some (min 0 (1 / 2)) := by
        simp [List.min?]
      rw [h1, min_eq_left (by norm_num)]
    rw [hmin, Option.map_some' _ _, List.indexOf_cons_self]
  have hmed : calculateMedian (([0, 10] : List ℝ).filter (fun d => 0 < d)) = 10 := by
    have hfil : (([0, 10] : List ℝ).filter (fun d => 0 < d)) = [10] := by
      rw [List.filter_cons, List.filter_cons]
      norm_num
    rw [hfil, calculateMedian]
    norm_num [sortByF, insertByF]
  have hclaim : claimSeed ⟨[0, 10], [1, 0], [2, 1]⟩ = 1 / 10 := by
    simp only [claimSeed, hidx, List.getD_cons_zero]
    norm_num
  have hcode : initialLD50Guess ⟨[0, 10], [1, 0], [2, 1]⟩ = 10 := by
    have hget : (([0, 10] : List ℝ).get? 0) = some 0 := rfl
    simp only [initialLD50Guess, hidx, Option.some_bind, hget]
    simp only [if_true]
    rw [hmed]
    norm_num
  exact ⟨hclaim, hcode, by rw [hclaim, hcode]; norm_num⟩

/-- C5 amended: fitModel seeds the optimizer with slope 1.0 and the
ed50 guess of initialLD50Guess, with the penalized objective that is the
sentinel 1e9 for non-positive candidate ed50 and the negative
log-likelihood otherwise; the guess is the dose of the (first) row whose
observed proportion is closest to 0.5 when that dose is nonzero, and
falls back to the median of the strictly positive doses both when no row
qualifies and when the selected dose is zero (the JavaScript falsy
fallback); a non-positive result is replaced by 0.1, so the seed is
always strictly positive. -/
theorem claim_C5_amended (data : DoseData)
    (hr : data.response.length = data.dose.length) :
    fitModel data =
      { slope := (nelderMead (objectiveFn data) [1, initialLD50Guess data]).1.getD 0 0
        ld50 := (nelderMead (objectiveFn data) [1, initialLD50Guess data]).1.getD 1 0 } ∧
    (∀ p : List ℝ, p.getD 1 0 ≤ 0 → objectiveFn data p = 1000000000) ∧
    (∀ p : List ℝ, 0 < p.getD 1 0 → objectiveFn data p = negativeLogLikelihood p data) ∧
    0 < initialLD50Guess data ∧
    (∀ i, halfEffectIdx data = some i →
      (data.dose.getD i 0 ≠ 0 →
        initialLD50Guess data =
          if data.dose.getD i 0 ≤ 0 then 1 / 10 else data.dose.getD i 0) ∧
      (data.dose.getD i 0 = 0 →
        initialLD50Guess data =
          if calculateMedian (data.dose.filter (fun d => 0 < d)) ≤ 0 then 1 / 10
          else calculateMedian (data.dose.filter (fun d => 0 < d)))) ∧
    (halfEffectIdx data = none →
      initialLD50Guess data =
        if calculateMedian (data.dose.filter (fun d => 0 < d)) ≤ 0 then 1 / 10
        else calculateMedian (data.dose.filter (fun d => 0 < d))) := by
  refine ⟨rfl, ?_, ?_, ?_, ?_, ?_⟩
  · intro p hp
    simp only [objectiveFn]
    rw [if_pos hp]
  · intro p hp
    simp only [objectiveFn]
    rw [if_neg (not_le.2 hp)]
  · simp only [initialLD50Guess]
    split
    · norm_num
    · rename_i hg
      exact lt_of_not_le hg
  · intro i hi
    have hlen : i < data.dose.length := halfEffectIdx_lt data hr hi
    have hget : data.dose.get? i = some (data.dose.getD i 0) := by
      rw [List.get?_eq_getElem?, List.getElem?_eq_getElem hlen,
        List.getD_eq_getElem _ _ hlen]
    constructor
    · intro hd
      simp only [initialLD50Guess, hi, Option.some_bind, hget]
      rw [if_neg hd]
    · intro hd
      simp only [initialLD50Guess, hi, Option.some_bind, hget]
      rw [if_pos hd]
  · intro hi
    simp only [initialLD50Guess, hi, Option.none_bind]

/-- Witness for the amended C5 on the dataset with rows (2, 1, 2) and
(4, 4, 4). -/
theorem claim_C5_amended_witness :
    (([1, 4] : List ℝ).length = ([2, 4] : List ℝ).length) ∧
    (0 < initialLD50Guess ⟨[2, 4], [1, 4], [2, 4]⟩ ∧
      fitModel ⟨[2, 4], [1, 4], [2, 4]⟩ =
        { slope := (nelderMead (objectiveFn ⟨[2, 4], [1, 4], [2, 4]⟩)
            [1, initialLD50Guess ⟨[2, 4], [1, 4], [2, 4]⟩]).1.getD 0 0
          ld50 := (nelderMead (objectiveFn ⟨[2, 4], [1, 4], [2, 4]⟩)
            [1, initialLD50Guess ⟨[2, 4], [1, 4], [2, 4]⟩]).1.getD 1 0 }) := by
  have h := claim_C5_amended ⟨[2, 4], [1, 4], [2, 4]⟩ rfl
  exact ⟨rfl, h.2.2.2.1, h.1⟩

/-! ### Claims C6, C7, C10: the bootstrap

The three claims quantify over runs of the bootstrap; they are proved for
an arbitrary fitter (the source hardcodes fitModel, and getBootstrapCI is
by definition the aggregation applied to fitModel), which also covers the
actual bootstrapInterval. -/

theorem collectFrom_cons (fit : DoseData → FitResult) (data : DoseData)
    (rand : ℕ → ℕ → ℕ) (a : ℕ) (l : List ℕ) :
    collectFrom fit data rand (a :: l) =
      match trialEstimate fit data rand a with
      | none => collectFrom fit data rand l
      | some v => v :: collectFrom fit data rand l := by
  cases h : trialEstimate fit data rand a with
  | none =>
    show List.filterMap _ (a :: l) = _
    rw [List.filterMap_cons, h]
    simp only [collectFrom]
  | some v =>
    show List.filterMap _ (a :: l) = _
    rw [List.filterMap_cons, h]
    simp only [collectFrom]

theorem collectFrom_eq_filter (fit : DoseData → FitResult) (data : DoseData)
    (rand : ℕ → ℕ → ℕ) (l : List ℕ) :
    collectFrom fit data rand l =
      (l.map (fun i => (fit (resampleData data (rand i))).ld50)).filter
        (fun x => decide (0 < x)) := by
  induction l with
  | nil => rfl
  | cons a as ih =>
    rw [collectFrom_cons, List.map_cons, List.filter_cons]
    by_cases h : 0 < (fit (resampleData data (rand a))).ld50
    · have hta : trialEstimate fit data rand a =
          some (fit (resampleData data (rand a))).ld50 := by
        simp [trialEstimate, h]
      rw [hta]
      simp [h, ih]
    · have hta : trialEstimate fit data rand a = none := by
        simp [trialEstimate, h]
      rw [hta]
      simp [h, ih]

theorem collectFrom_drop_bad (fit : DoseData → FitResult) (data : DoseData)
    (rand : ℕ → ℕ → ℕ) (k : ℕ)
    (hbad : (fit (resampleData data (rand k))).ld50 ≤ 0) (l : List ℕ) :
    collectFrom fit data rand l =
      collectFrom fit data rand (l.filter (fun i => decide (i ≠ k))) := by
  induction l with
  | nil => rfl
  | cons a as ih =>
    by_cases hak : a = k
    · subst hak
      have hta : trialEstimate fit data rand a = none := by
        simp [trialEstimate, not_lt.2 hbad]
      rw [List.filter_cons, if_neg (by simp), collectFrom_cons, hta]
      exact ih
    · rw [List.filter_cons, if_pos (by simp [hak]), collectFrom_cons, collectFrom_cons]
      cases hta : trialEstimate fit data rand a with
      | none => exact ih
      | some v => exact congrArg (List.cons v) ih

/-- C6: an estimate is recorded exactly when the fitted ed50 of the trial
is strictly positive (in the real-number embedding the source's
isFinite test and the try/catch are vacuous: the embedded fitter is total
and every real is finite); a discarded trial contributes nothing and the
remaining trials are unaffected; and fewer than 50 recorded estimates
give the undefined sentinel interval rather than an error. -/
theorem claim_C6 (fit : DoseData → FitResult) (data : DoseData)
    (iterations : ℕ) (rand : ℕ → ℕ → ℕ) :
    collectEstimates fit data iterations rand =
      ((List.range iterations).map
        (fun i => (fit (resampleData data (rand i))).ld50)).filter
        (fun x => decide (0 < x)) ∧
    (∀ x ∈ collectEstimates fit data iterations rand, 0 < x) ∧
    (∀ k, (fit (resampleData data (rand k))).ld50 ≤ 0 →
      collectEstimates fit data iterations rand =
        collectFrom fit data rand
          ((List.range iterations).filter (fun i => decide (i ≠ k)))) ∧
    ((collectEstimates fit data iterations rand).length < 50 →
      getBootstrapCIAux fit data iterations rand = none) ∧
    getBootstrapCI data iterations rand = getBootstrapCIAux fitModel data iterations rand := by
  refine ⟨collectFrom_eq_filter fit data rand _, ?_, ?_, ?_, rfl⟩
  · intro x hx
    rw [collectEstimates, collectFrom_eq_filter] at hx
    have := List.of_mem_filter hx
    simpa using this
  · intro k hk
    exact collectFrom_drop_bad fit data rand k hk _
  · intro hlen
    simp only [getBootstrapCIAux]
    rw [if_pos hlen]

/-- Witness for C6: a fitter whose ed50 is one less than the first
resampled dose, on the dataset with doses 1 and 3; trial 0 resamples the
dose-1 row twice and is discarded (fitted ed50 equal to 0), trials 1 and
2 resample the dose-3 row and are recorded; 2 estimates are fewer than
50, so the sentinel interval results. -/
theorem claim_C6_witness :
    ((fun d : DoseData => (⟨d.dose.headI - 1, 1⟩ : FitResult))
      (resampleData ⟨[1, 3], [1, 1], [2, 2]⟩
        ((fun i _ => if i = 0 then 0 else 1) 0))).ld50 ≤ 0 ∧
    collectEstimates (fun d : DoseData => (⟨d.dose.headI - 1, 1⟩ : FitResult))
        ⟨[1, 3], [1, 1], [2, 2]⟩ 3 (fun i _ => if i = 0 then 0 else 1) =
      collectFrom (fun d : DoseData => (⟨d.dose.headI - 1, 1⟩ : FitResult))
        ⟨[1, 3], [1, 1], [2, 2]⟩ (fun i _ => if i = 0 then 0 else 1)
        ((List.range 3).filter (fun i => decide (i ≠ 0))) ∧
    (collectEstimates (fun d : DoseData => (⟨d.dose.headI - 1, 1⟩ : FitResult))
        ⟨[1, 3], [1, 1], [2, 2]⟩ 3 (fun i _ => if i = 0 then 0 else 1)).length < 50 ∧
    getBootstrapCIAux (fun d : DoseData => (⟨d.dose.headI - 1, 1⟩ : FitResult))
      ⟨[1, 3], [1, 1], [2, 2]⟩ 3 (fun i _ => if i = 0 then 0 else 1) = none := by
  have h := claim_C6 (fun d : DoseData => (⟨d.dose.headI - 1, 1⟩ : FitResult))
    ⟨[1, 3], [1, 1], [2, 2]⟩ 3 (fun i _ => if i = 0 then 0 else 1)
  have h0 : ((fun d : DoseData => (⟨d.dose.headI - 1, 1⟩ : FitResult))
      (resampleData ⟨[1, 3], [1, 1], [2, 2]⟩
        ((fun i _ => if i = 0 then 0 else 1) 0))).ld50 ≤ 0 := by
    show (1 : ℝ) - 1 ≤ 0
    norm_num
  have hte0 : trialEstimate (fun d : DoseData => (⟨d.dose.headI - 1, 1⟩ : FitResult))
      ⟨[1, 3], [1, 1], [2, 2]⟩ (fun i _ => if i = 0 then 0 else 1) 0 = none := by
    show (if 0 < (1 : ℝ) - 1 then some ((1 : ℝ) - 1) else none) = none
    rw [if_neg (by norm_num)]
  have hte1 : trialEstimate (fun d : DoseData => (⟨d.dose.headI - 1, 1⟩ : FitResult))
      ⟨[1, 3], [1, 1], [2, 2]⟩ (fun i _ => if i = 0 then 0 else 1) 1 = some ((3 : ℝ) - 1) := by
    show (if 0 < (3 : ℝ) - 1 then some ((3 : ℝ) - 1) else none) = some ((3 : ℝ) - 1)
    rw [if_pos (by norm_num)]
  have hte2 : trialEstimate (fun d : DoseData => (⟨d.dose.headI - 1, 1⟩ : FitResult))
      ⟨[1, 3], [1, 1], [2, 2]⟩ (fun i _ => if i = 0 then 0 else 1) 2 = some ((3 : ℝ) - 1) := by
    show (if 0 < (3 : ℝ) - 1 then some ((3 : ℝ) - 1) else none) = some ((3 : ℝ) - 1)
    rw [if_pos (by norm_num)]
  have hcol : collectEstimates (fun d : DoseData => (⟨d.dose.headI - 1, 1⟩ : FitResult))
      ⟨[1, 3], [1, 1], [2, 2]⟩ 3 (fun i _ => if i = 0 then 0 else 1) =
      [(3 : ℝ) - 1, (3 : ℝ) - 1] := by
    rw [collectEstimates, show List.range 3 = [0, 1, 2] from rfl,
      collectFrom_cons, hte0, collectFrom_cons, hte1, collectFrom_cons, hte2]
    rfl
  have hlen : (collectEstimates (fun d : DoseData => (⟨d.dose.headI - 1, 1⟩ : FitResult))
      ⟨[1, 3], [1, 1], [2, 2]⟩ 3 (fun i _ => if i = 0 then 0 else 1)).length < 50 := by
    rw [hcol]
    norm_num
  exact ⟨h0, h.2.2.1 0 h0, hlen, h.2.2.2.1 hlen⟩

/-- C7: when at least 50 estimates are recorded, the interval is read off
the ascending sort s of the recorded estimates at the indices
floor(0.025 * count) and ceil(0.975 * count). -/
theorem claim_C7 (fit : DoseData → FitResult) (data : DoseData)
    (iterations : ℕ) (rand : ℕ → ℕ → ℕ)
    (h50 : 50 ≤ (collectEstimates fit data iterations rand).length) :
    ∃ s : List ℝ,
      List.Perm s (collectEstimates fit data iterations rand) ∧
      s.Sorted (· ≤ ·) ∧
      getBootstrapCIAux fit data iterations rand =
        some (s.getD (Nat.floor ((25 : ℚ) / 1000 *
                (collectEstimates fit data iterations rand).length)) 0,
              s.getD (Nat.ceil ((975 : ℚ) / 1000 *
                (collectEstimates fit data iterations rand).length)) 0) := by
  refine ⟨sortByF id (collectEstimates fit data iterations rand),
    perm_sortByF id _, ?_, ?_⟩
  · exact sorted_sortByF id _
  · simp only [getBootstrapCIAux]
    rw [if_neg (not_lt.2 h50)]

/-- C10: with at least 50 recorded estimates both percentile indices are
in bounds, the lower index is at most the upper one, and the returned
defined interval is an ordered pair of actual recorded estimates. -/
theorem claim_C10 (fit : DoseData → FitResult) (data : DoseData)
    (iterations : ℕ) (rand : ℕ → ℕ → ℕ)
    (h50 : 50 ≤ (collectEstimates fit data iterations rand).length) :
    Nat.ceil ((975 : ℚ) / 1000 * (collectEstimates fit data iterations rand).length) ≤
      (collectEstimates fit data iterations rand).length - 1 ∧
    Nat.floor ((25 : ℚ) / 1000 * (collectEstimates fit data iterations rand).length) ≤
      Nat.ceil ((975 : ℚ) / 1000 * (collectEstimates fit data iterations rand).length) ∧
    ∃ lo hi, getBootstrapCIAux fit data iterations rand = some (lo, hi) ∧
      lo ≤ hi ∧ lo ∈ collectEstimates fit data iterations rand ∧
      hi ∈ collectEstimates fit data iterations rand := by
  have hLq : (50 : ℚ) ≤ ((collectEstimates fit data iterations rand).length : ℚ) := by
    exact_mod_cast h50
  have hceil : Nat.ceil ((975 : ℚ) / 1000 *
      (collectEstimates fit data iterations rand).length) ≤
      (collectEstimates fit data iterations rand).length - 1 := by
    rw [Nat.ceil_le, Nat.cast_sub (by omega), Nat.cast_one]
    linarith
  have hfloor : Nat.floor ((25 : ℚ) / 1000 *
      (collectEstimates fit data iterations rand).length) ≤
      Nat.ceil ((975 : ℚ) / 1000 *
        (collectEstimates fit data iterations rand).length) := by
    refine le_trans (Nat.floor_mono ?_) (Nat.floor_le_ceil _)
    have hc : (0 : ℚ) ≤ ((collectEstimates fit data iterations rand).length : ℚ) := by
      positivity
    nlinarith
  have hupper : Nat.ceil ((975 : ℚ) / 1000 *
      (collectEstimates fit data iterations rand).length) <
      (sortByF id (collectEstimates fit data iterations rand)).length := by
    rw [length_sortByF]
    omega
  have hlower : Nat.floor ((25 : ℚ) / 1000 *
      (collectEstimates fit data iterations rand).length) <
      (sortByF id (collectEstimates fit data iterations rand)).length :=
    lt_of_le_of_lt hfloor hupper
  refine ⟨hceil, hfloor,
    (sortByF id (collectEstimates fit data iterations rand)).getD
      (Nat.floor ((25 : ℚ) / 1000 * (collectEstimates fit data iterations rand).length)) 0,
    (sortByF id (collectEstimates fit data iterations rand)).getD
      (Nat.ceil ((975 : ℚ) / 1000 * (collectEstimates fit data iterations rand).length)) 0,
    ?_, ?_, ?_, ?_⟩
  · simp only [getBootstrapCIAux]
    rw [if_neg (not_lt.2 h50)]
  · exact sorted_getD_mono id _ (sorted_sortByF id _) hfloor hupper
  · rw [List.getD_eq_getElem _ _ hlower]
    exact (mem_sortByF id _).1 (List.getElem_mem hlower)
  · rw [List.getD_eq_getElem _ _ hupper]
    exact (mem_sortByF id _).1 (List.getElem_mem hupper)

/-- Evaluation helper: a fitter returning a constant positive ed50 records
every trial, giving a constant list of estimates. -/
theorem collectEstimates_const (c s : ℝ) (hc : 0 < c) (data : DoseData)
    (iterations : ℕ) (rand : ℕ → ℕ → ℕ) :
    collectEstimates (fun _ => ⟨c, s⟩) data iterations rand =
      List.replicate iterations c := by
  rw [collectEstimates, collectFrom]
  have hte : trialEstimate (fun _ => (⟨c, s⟩ : FitResult)) data rand =
      fun _ => some c := by
    funext i
    simp [trialEstimate, hc]
  rw [hte, show (fun _ : ℕ => some c) = some ∘ (Function.const ℕ c) from rfl,
    List.filterMap_eq_map, List.map_const, List.length_range]

/-- Witness for C7 with a constant fitter, 60 iterations and index source
zero. -/
theorem claim_C7_witness :
    50 ≤ (collectEstimates (fun _ => (⟨1, 1⟩ : FitResult)) ⟨[1], [1], [1]⟩ 60
        (fun _ _ => 0)).length ∧
    ∃ s : List ℝ,
      List.Perm s (collectEstimates (fun _ => (⟨1, 1⟩ : FitResult)) ⟨[1], [1], [1]⟩ 60
        (fun _ _ => 0)) ∧
      s.Sorted (· ≤ ·) ∧
      getBootstrapCIAux (fun _ => (⟨1, 1⟩ : FitResult)) ⟨[1], [1], [1]⟩ 60
          (fun _ _ => 0) =
        some (s.getD (Nat.floor ((25 : ℚ) / 1000 *
                (collectEstimates (fun _ => (⟨1, 1⟩ : FitResult)) ⟨[1], [1], [1]⟩ 60
                  (fun _ _ => 0)).length)) 0,
              s.getD (Nat.ceil ((975 : ℚ) / 1000 *
                (collectEstimates (fun _ => (⟨1, 1⟩ : FitResult)) ⟨[1], [1], [1]⟩ 60
                  (fun _ _ => 0)).length)) 0) := by
  have hlen : 50 ≤ (collectEstimates (fun _ => (⟨1, 1⟩ : FitResult)) ⟨[1], [1], [1]⟩ 60
      (fun _ _ => 0)).length := by
    rw [collectEstimates_const 1 1 one_pos ⟨[1], [1], [1]⟩ 60 (fun _ _ => 0),
      List.length_replicate]
    norm_num
  exact ⟨hlen, claim_C7 _ _ _ _ hlen⟩

/-- Witness for C10 with a constant fitter and 55 iterations. -/
theorem claim_C10_witness :
    50 ≤ (collectEstimates (fun _ => (⟨2, 1⟩ : FitResult)) ⟨[1], [1], [1]⟩ 55
        (fun _ _ => 0)).length ∧
    (Nat.ceil ((975 : ℚ) / 1000 *
        (collectEstimates (fun _ => (⟨2, 1⟩ : FitResult)) ⟨[1], [1], [1]⟩ 55
          (fun _ _ => 0)).length) ≤
      (collectEstimates (fun _ => (⟨2, 1⟩ : FitResult)) ⟨[1], [1], [1]⟩ 55
        (fun _ _ => 0)).length - 1 ∧
    Nat.floor ((25 : ℚ) / 1000 *
        (collectEstimates (fun _ => (⟨2, 1⟩ : FitResult)) ⟨[1], [1], [1]⟩ 55
          (fun _ _ => 0)).length) ≤
      Nat.ceil ((975 : ℚ) / 1000 *
        (collectEstimates (fun _ => (⟨2, 1⟩ : FitResult)) ⟨[1], [1], [1]⟩ 55
          (fun _ _ => 0)).length) ∧
    ∃ lo hi, getBootstrapCIAux (fun _ => (⟨2, 1⟩ : FitResult)) ⟨[1], [1], [1]⟩ 55
        (fun _ _ => 0) = some (lo, hi) ∧
      lo ≤ hi ∧
      lo ∈ collectEstimates (fun _ => (⟨2, 1⟩ : FitResult)) ⟨[1], [1], [1]⟩ 55
        (fun _ _ => 0) ∧
      hi ∈ collectEstimates (fun _ => (⟨2, 1⟩ : FitResult)) ⟨[1], [1], [1]⟩ 55
        (fun _ _ => 0)) := by
  have hlen : 50 ≤ (collectEstimates (fun _ => (⟨2, 1⟩ : FitResult)) ⟨[1], [1], [1]⟩ 55
      (fun _ _ => 0)).length := by
    rw [collectEstimates_const 2 1 two_pos ⟨[1], [1], [1]⟩ 55 (fun _ _ => 0),
      List.length_replicate]
    norm_num
  exact ⟨hlen, claim_C10 _ _ _ _ hlen⟩

end Kintmtool
